import Mathlib

/-!
# Verification of the ouij-ai planchette motion engine

A shallow embedding of the motion-relevant core of the `evgenyvinnik/ouij-ai`
repository, together with theorems settling the specification's claims.

Embedded source files:
* `src/state/useOuijaStore.ts` — the Zustand store (turn/queue state machine);
* `src/utils/letterCoords.ts` — the coordinate table, projector and tip metadata;
* `src/utils/animations.ts` — easing and quadratic-Bezier curve math;
* `usePlanchetteAnimation` — the requestAnimationFrame scheduler (guard,
  adaptive duration, per-frame position/rotation computation with tip offset);
* `src/hooks/useAIChat.ts` — the error-path cancel operation.

JavaScript numbers are modelled as real numbers where square roots and
trigonometry are involved (curve math, durations), and as rationals in the
store, whose actions only copy values.  `undefined` array reads are modelled
by `List.getD _ ""`, which agrees with the two observations the code makes of
such a read (`Array.prototype.join` renders `undefined` as the empty string,
and both `undefined` and `""` are falsy in the scheduler's guard).
-/

namespace Ouija

/-! ## Data model (`src/types/ouija.ts`) -/

/-- A 2D position in board percentage units (store side, exact rationals). -/
structure PositionQ where
  x : ℚ
  y : ℚ
deriving DecidableEq, Repr

/-- A pixel offset from board center (`LetterCoord` in `types/ouija.ts`). -/
structure LetterCoord where
  x : ℚ
  y : ℚ
deriving DecidableEq, Repr

/-- The sender of a conversation message. -/
inductive Role where
  | user
  | assistant
deriving DecidableEq, Repr

/-- A conversation message (`Message` in `types/ouija.ts`). -/
structure Message where
  role : Role
  content : String
deriving DecidableEq, Repr

/-- The turn indicator: code values `'user' | 'spirit' | 'animating'`. -/
inductive Turn where
  | user
  | spirit
  | animating
deriving DecidableEq, Repr

/-- Planchette substate of the store. -/
structure Planchette where
  position : PositionQ
  rotation : ℚ
deriving DecidableEq, Repr

/-- Animation substate of the store. -/
structure AnimationSt where
  isAnimating : Bool
  letterQueue : List String
  revealedLetters : List String
  currentLetterIndex : Nat
deriving DecidableEq, Repr

/-- The Zustand store state (`OuijaState` in `types/ouija.ts`), restricted to
the fields the store actions read or write. -/
structure OuijaState where
  planchette : Planchette
  animation : AnimationSt
  turn : Turn
  userMessage : String
  conversationHistory : List Message
  spiritName : Option String
  hasCompletedIntro : Bool
  errorMessage : Option String
  lastActivityTimestamp : Nat
deriving DecidableEq, Repr

/-! ## Store actions (`src/state/useOuijaStore.ts`) -/

/-- The initial store state (`useOuijaStore.ts` lines 10-32); `Date.now()` is
passed in as `now`. -/
def initialState (now : Nat) : OuijaState :=
  { planchette := { position := { x := 50, y := 50 }, rotation := 0 }
    animation := { isAnimating := false, letterQueue := [],
                   revealedLetters := [], currentLetterIndex := 0 }
    turn := Turn.user
    userMessage := ""
    conversationHistory := []
    spiritName := none
    hasCompletedIntro := false
    errorMessage := none
    lastActivityTimestamp := now }

/-- Action `movePlanchette(position, rotation?)`: the rotation is updated only when
the optional argument is supplied. -/
def movePlanchette (p : PositionQ) (rot : Option ℚ) (s : OuijaState) : OuijaState :=
  { s with planchette := { position := p
                           rotation := rot.getD s.planchette.rotation } }

/-- Action `queueLetters(letters)`: replaces the queue, marks animating, resets the
cursor and the revealed list, and sets the turn to `'animating'`. -/
def queueLetters (letters : List String) (s : OuijaState) : OuijaState :=
  { s with animation := { s.animation with
                          letterQueue := letters
                          isAnimating := true
                          currentLetterIndex := 0
                          revealedLetters := [] }
           turn := Turn.animating }

/-- Action `revealNextLetter()`: appends the current letter to the revealed list and
either advances the cursor, or — when `nextIndex >= letterQueue.length` —
finalizes: clears `isAnimating`, appends the joined message to the history,
sets the turn to `'user'` and stamps `Date.now()` (passed as `now`).  Note the
final branch leaves `currentLetterIndex` untouched, exactly as the source
does. -/
def revealNextLetter (now : Nat) (s : OuijaState) : OuijaState :=
  let nextIndex := s.animation.currentLetterIndex + 1
  let letter := s.animation.letterQueue.getD s.animation.currentLetterIndex ""
  if s.animation.letterQueue.length ≤ nextIndex then
    { s with animation := { s.animation with
                            isAnimating := false
                            revealedLetters := s.animation.revealedLetters ++ [letter] }
             conversationHistory := s.conversationHistory ++
               [{ role := Role.assistant
                  content := String.join (s.animation.revealedLetters ++ [letter]) }]
             turn := Turn.user
             lastActivityTimestamp := now }
  else
    { s with animation := { s.animation with
                            currentLetterIndex := nextIndex
                            revealedLetters := s.animation.revealedLetters ++ [letter] } }

/-- Action `clearAnimation()`: resets the animation substate only (it does not touch
the planchette or the turn). -/
def clearAnimation (s : OuijaState) : OuijaState :=
  { s with animation := { s.animation with
                          letterQueue := []
                          revealedLetters := []
                          currentLetterIndex := 0
                          isAnimating := false } }

/-- Action `setTurn(turn)`. -/
def setTurn (t : Turn) (s : OuijaState) : OuijaState :=
  { s with turn := t }

/-- Action `setError(error)`. -/
def setError (e : Option String) (s : OuijaState) : OuijaState :=
  { s with errorMessage := e }

/-- Action `resetSession()` (`useOuijaStore.ts` lines 128-147). -/
def resetSession (now : Nat) (s : OuijaState) : OuijaState :=
  let _ := s
  initialState now

/-- The error-path cancel operation: `useAIChat.ts` `onError` runs
`setError(error); setTurn('user'); clearAnimation()`. -/
def onErrorCancel (error : String) (s : OuijaState) : OuijaState :=
  clearAnimation (setTurn Turn.user (setError (some error) s))

/-! ## Scheduler guard and start position (`usePlanchetteAnimation`) -/

/-- The guard of the animation effect: it runs only when `isAnimating` holds,
the queue is non-empty, and the current letter is truthy (an out-of-range read
yields `undefined` and an empty string is falsy; both are modelled by `""`). -/
def schedulerActive (s : OuijaState) : Bool :=
  s.animation.isAnimating && !s.animation.letterQueue.isEmpty &&
    !(s.animation.letterQueue.getD s.animation.currentLetterIndex "").isEmpty

/-- The start position the scheduler records for a cycle: the planchette's
current position read from the store. -/
def schedulerStartPos (s : OuijaState) : PositionQ :=
  s.planchette.position

/-- One completed move/pause cycle of the scheduler: the effect runs only when
its guard passes, and a completed cycle ends by calling `revealNextLetter()`;
`now` is the `Date.now()` of that final tick. -/
def schedulerCycle (now : Nat) (s : OuijaState) : OuijaState :=
  if schedulerActive s then revealNextLetter now s else s

/-! ## Theorems: enqueue and cancel contracts -/

/-- C6: `queueLetters` installs the new queue wholesale regardless of the
previous state: the queue equals the argument, the revealed list is cleared,
the cursor is 0, `isAnimating` is set and the turn becomes `animating`. -/
theorem queueLetters_replaces_wholesale (letters : List String) (s : OuijaState) :
    (queueLetters letters s).animation.letterQueue = letters ∧
    (queueLetters letters s).animation.revealedLetters = [] ∧
    (queueLetters letters s).animation.currentLetterIndex = 0 ∧
    (queueLetters letters s).animation.isAnimating = true ∧
    (queueLetters letters s).turn = Turn.animating := by
  refine ⟨rfl, rfl, rfl, rfl, rfl⟩

/-- C5: the error-path cancel empties the queue and revealed list, resets the
cursor, stops the animation and the scheduler, sets the turn to `'user'`,
leaves the planchette untouched, and a following `queueLetters` starts its
cycle from the planchette's last position. -/
theorem cancel_clears_state (err : String) (s : OuijaState) :
    (onErrorCancel err s).animation.letterQueue = [] ∧
    (onErrorCancel err s).animation.revealedLetters = [] ∧
    (onErrorCancel err s).animation.currentLetterIndex = 0 ∧
    (onErrorCancel err s).animation.isAnimating = false ∧
    (onErrorCancel err s).turn = Turn.user ∧
    schedulerActive (onErrorCancel err s) = false ∧
    (onErrorCancel err s).planchette = s.planchette ∧
    ∀ letters : List String,
      schedulerStartPos (queueLetters letters (onErrorCancel err s)) =
        s.planchette.position := by
  refine ⟨rfl, rfl, rfl, rfl, rfl, rfl, rfl, fun _ => rfl⟩

/-! ## Theorems: the scheduler drains the queue (C1) -/

/-- Reading a list at the length of a prefix lands on the head of the rest. -/
theorem getD_append_length (pre l : List String) (d : String) :
    (pre ++ l).getD pre.length d = l.getD 0 d := by
  induction pre with
  | nil => rfl
  | cons a pre ih => simpa [List.getD] using ih

/-- Drain invariant: from any state that is mid-drain (animating, queue equal
to revealed prefix plus a non-empty rest of non-empty letters, cursor at the
prefix length), running one scheduler cycle per remaining letter reveals the
whole queue, stops the animation, hands the turn back to the user, and appends
the joined text to the history exactly once. -/
theorem drain_aux (rest : List String) :
    ∀ (ns : List Nat) (pre : List String) (s : OuijaState),
      rest ≠ [] → "" ∉ rest → ns.length = rest.length →
      s.animation.isAnimating = true →
      s.animation.letterQueue = pre ++ rest →
      s.animation.revealedLetters = pre →
      s.animation.currentLetterIndex = pre.length →
      (ns.foldl (fun st n => schedulerCycle n st) s).animation.revealedLetters = pre ++ rest ∧
      (ns.foldl (fun st n => schedulerCycle n st) s).animation.isAnimating = false ∧
      (ns.foldl (fun st n => schedulerCycle n st) s).turn = Turn.user ∧
      (ns.foldl (fun st n => schedulerCycle n st) s).conversationHistory =
        s.conversationHistory ++
          [{ role := Role.assistant, content := String.join (pre ++ rest) }] := by
  induction rest with
  | nil => intro ns pre s hne; exact absurd rfl hne
  | cons a rest' ih =>
    intro ns pre s _ hmem hlen hanim hqueue hrev hidx
    obtain ⟨n, ns', rfl⟩ : ∃ n ns', ns = n :: ns' := by
      cases ns with
      | nil => simp at hlen
      | cons n ns' => exact ⟨n, ns', rfl⟩
    have ha : a ≠ "" := fun h => hmem (h ▸ List.mem_cons_self a rest')
    have hget : s.animation.letterQueue.getD s.animation.currentLetterIndex "" = a := by
      rw [hqueue, hidx, getD_append_length]; rfl
    have hguard : schedulerActive s = true := by
      have hae : a.isEmpty = false := by
        cases h : a.isEmpty
        · rfl
        · exact absurd ((String.isEmpty_iff a).mp h) ha
      unfold schedulerActive
      rw [hanim, hget, hae, hqueue]
      simp
    have hstep : schedulerCycle n s = revealNextLetter n s := by
      simp [schedulerCycle, hguard]
    cases rest' with
    | nil =>
      -- last letter: the final branch of revealNextLetter fires
      obtain rfl : ns' = [] := by simpa using hlen
      have hfin : s.animation.letterQueue.length ≤ s.animation.currentLetterIndex + 1 := by
        rw [hqueue, hidx]; simp
      rw [List.foldl, List.foldl, hstep]
      simp only [revealNextLetter]
      rw [if_pos hfin, hget, hrev, hqueue]
      exact ⟨rfl, rfl, rfl, rfl⟩
    | cons b rest'' =>
      -- more letters remain: the advancing branch fires
      have hnf : ¬ s.animation.letterQueue.length ≤ s.animation.currentLetterIndex + 1 := by
        rw [hqueue, hidx]; simp [Nat.add_assoc]
      have hstate : schedulerCycle n s =
          { s with animation := { s.animation with
                                  currentLetterIndex := s.animation.currentLetterIndex + 1
                                  revealedLetters := s.animation.revealedLetters ++ [a] } } := by
        rw [hstep]
        simp only [revealNextLetter]
        rw [if_neg hnf, hget]
      have hres := ih ns' (pre ++ [a])
        { s with animation := { s.animation with
                                currentLetterIndex := s.animation.currentLetterIndex + 1
                                revealedLetters := s.animation.revealedLetters ++ [a] } }
        (by simp) (fun h => hmem (List.mem_cons_of_mem a h)) (by simpa using hlen)
        hanim (by simp [hqueue]) (by simp [hrev]) (by simp [hidx])
      rw [List.foldl, hstate]
      simpa [List.append_assoc] using hres

/-- C1: a non-empty queue of symbols installed by `queueLetters` is fully
drained by one scheduler cycle per symbol: the revealed list equals the queue
(so the revealed text is the concatenation of the symbols in order), the
animation stops, the turn returns to `'user'`, and the joined text is appended
to the conversation history exactly once as one assistant message. -/
theorem scheduler_drains_fully (s₀ : OuijaState) (letters : List String) (ns : List Nat)
    (hne : letters ≠ []) (hsym : "" ∉ letters) (hlen : ns.length = letters.length) :
    (ns.foldl (fun st n => schedulerCycle n st) (queueLetters letters s₀)).animation.revealedLetters
        = letters ∧
    String.join
        (ns.foldl (fun st n => schedulerCycle n st)
          (queueLetters letters s₀)).animation.revealedLetters = String.join letters ∧
    (ns.foldl (fun st n => schedulerCycle n st) (queueLetters letters s₀)).animation.isAnimating
        = false ∧
    (ns.foldl (fun st n => schedulerCycle n st) (queueLetters letters s₀)).turn = Turn.user ∧
    (ns.foldl (fun st n => schedulerCycle n st) (queueLetters letters s₀)).conversationHistory =
      s₀.conversationHistory ++
        [{ role := Role.assistant, content := String.join letters }] := by
  have h := drain_aux letters ns [] (queueLetters letters s₀) hne hsym hlen
    rfl (by simp [queueLetters]) rfl rfl
  simp only [List.nil_append] at h
  exact ⟨h.1, by rw [h.1], h.2.1, h.2.2.1, h.2.2.2⟩

/-- Witness for C1 at the concrete queue `["H","I"]`. -/
theorem scheduler_drains_fully_witness :
    (["H","I"] : List String) ≠ [] ∧ ("" ∉ (["H","I"] : List String)) ∧
      ([3,7] : List Nat).length = (["H","I"] : List String).length ∧
    (([3,7] : List Nat).foldl (fun st n => schedulerCycle n st)
        (queueLetters ["H","I"] (initialState 0))).animation.revealedLetters = ["H","I"] ∧
    String.join
        (([3,7] : List Nat).foldl (fun st n => schedulerCycle n st)
          (queueLetters ["H","I"] (initialState 0))).animation.revealedLetters =
        String.join ["H","I"] ∧
    (([3,7] : List Nat).foldl (fun st n => schedulerCycle n st)
        (queueLetters ["H","I"] (initialState 0))).animation.isAnimating = false ∧
    (([3,7] : List Nat).foldl (fun st n => schedulerCycle n st)
        (queueLetters ["H","I"] (initialState 0))).turn = Turn.user ∧
    (([3,7] : List Nat).foldl (fun st n => schedulerCycle n st)
        (queueLetters ["H","I"] (initialState 0))).conversationHistory =
      (initialState 0).conversationHistory ++
        [{ role := Role.assistant, content := String.join ["H","I"] }] :=
  ⟨by decide, by decide, by decide,
    scheduler_drains_fully (initialState 0) ["H","I"] [3,7]
      (by decide) (by decide) (by decide)⟩

/-! ## Theorems: cursor/revealed invariant over reachable states (C2) -/

/-- One application of a store action from the set the claim names: enqueue
(`queueLetters`), reveal-step (`revealNextLetter`), cancel (`clearAnimation`)
or reset (`resetSession`). -/
inductive StoreStep : OuijaState → OuijaState → Prop where
  | enqueue (letters : List String) (s : OuijaState) : StoreStep s (queueLetters letters s)
  | reveal (now : Nat) (s : OuijaState) : StoreStep s (revealNextLetter now s)
  | cancel (s : OuijaState) : StoreStep s (clearAnimation s)
  | reset (now : Nat) (s : OuijaState) : StoreStep s (resetSession now s)

/-- A state reachable from the initial store state by the four actions. -/
def ReachableStore (s : OuijaState) : Prop :=
  ∃ now₀, Relation.ReflTransGen StoreStep (initialState now₀) s

/-- Counterexample to C2: after enqueueing the one-symbol queue `["H"]` and
revealing its only letter, the final reachable state has one revealed letter
but the cursor is still 0, so `revealed.length = cursor` fails in the final
state after the last symbol of a queue is revealed. -/
theorem cursor_invariant_final_state_cex :
    ReachableStore (revealNextLetter 1 (queueLetters ["H"] (initialState 0))) ∧
    (revealNextLetter 1 (queueLetters ["H"] (initialState 0))).animation.isAnimating = false ∧
    ¬ (revealNextLetter 1 (queueLetters ["H"] (initialState 0))).animation.revealedLetters.length
        = (revealNextLetter 1 (queueLetters ["H"] (initialState 0))).animation.currentLetterIndex := by
  refine ⟨⟨0, ?_⟩, by decide, by decide⟩
  exact Relation.ReflTransGen.tail
    (Relation.ReflTransGen.tail Relation.ReflTransGen.refl
      (StoreStep.enqueue ["H"] (initialState 0)))
    (StoreStep.reveal 1 (queueLetters ["H"] (initialState 0)))

/-- Each of the four store actions preserves the cursor/revealed invariant. -/
theorem storeStep_preserves_cursor {s t : OuijaState} (hstep : StoreStep s t)
    (ih : s.animation.currentLetterIndex ≤ s.animation.letterQueue.length ∧
      (s.animation.isAnimating = true →
        s.animation.revealedLetters.length = s.animation.currentLetterIndex)) :
    t.animation.currentLetterIndex ≤ t.animation.letterQueue.length ∧
    (t.animation.isAnimating = true →
      t.animation.revealedLetters.length = t.animation.currentLetterIndex) := by
  cases hstep with
  | enqueue letters => exact ⟨Nat.zero_le _, fun _ => rfl⟩
  | reveal now =>
    by_cases hfin : s.animation.letterQueue.length ≤ s.animation.currentLetterIndex + 1
    · refine ⟨?_, ?_⟩
      · simp only [revealNextLetter, if_pos hfin]
        exact ih.1
      · intro hA
        simp only [revealNextLetter, if_pos hfin] at hA
        exact absurd hA (by simp)
    · refine ⟨?_, ?_⟩
      · simp only [revealNextLetter, if_neg hfin]
        exact Nat.le_of_lt (Nat.lt_of_not_le hfin)
      · intro hA
        simp only [revealNextLetter, if_neg hfin] at hA ⊢
        simp [ih.2 hA]
  | cancel => exact ⟨Nat.le_refl 0, by simp [clearAnimation]⟩
  | reset now => exact ⟨Nat.le_refl 0, fun _ => rfl⟩

/-- C2 (amended): in every state reachable by enqueue, reveal-step, cancel and
reset, the cursor is at most the queue length, and the revealed count equals
the cursor whenever `isAnimating` holds (i.e. at all times before the drain
finalizes); in the final state after the last reveal, `isAnimating` is false
and the cursor lags the revealed count by one (see the counterexample
above). -/
theorem cursor_invariant (s : OuijaState) (h : ReachableStore s) :
    s.animation.currentLetterIndex ≤ s.animation.letterQueue.length ∧
    (s.animation.isAnimating = true →
      s.animation.revealedLetters.length = s.animation.currentLetterIndex) := by
  obtain ⟨now₀, hr⟩ := h
  induction hr with
  | refl => exact ⟨Nat.le_refl 0, fun _ => rfl⟩
  | tail _ hstep ih => exact storeStep_preserves_cursor hstep ih

/-- Witness for C2 (amended) at a concrete mid-animation reachable state. -/
theorem cursor_invariant_witness :
    ReachableStore (queueLetters ["H","I"] (initialState 0)) ∧
    ((queueLetters ["H","I"] (initialState 0)).animation.currentLetterIndex ≤
        (queueLetters ["H","I"] (initialState 0)).animation.letterQueue.length ∧
      ((queueLetters ["H","I"] (initialState 0)).animation.isAnimating = true →
        (queueLetters ["H","I"] (initialState 0)).animation.revealedLetters.length =
          (queueLetters ["H","I"] (initialState 0)).animation.currentLetterIndex)) :=
  have hreach : ReachableStore (queueLetters ["H","I"] (initialState 0)) :=
    ⟨0, Relation.ReflTransGen.single (StoreStep.enqueue ["H","I"] (initialState 0))⟩
  ⟨hreach, cursor_invariant (queueLetters ["H","I"] (initialState 0)) hreach⟩

/-! ## Theorems: empty enqueue wedges the turn (C10) -/

/-- An internal (non-user-initiated) transition: a per-frame planchette write,
or a reveal-step, which the effect only ever issues when its guard passes. -/
inductive InternalStep : OuijaState → OuijaState → Prop where
  | frame (p : PositionQ) (rot : Option ℚ) (s : OuijaState) :
      InternalStep s (movePlanchette p rot s)
  | reveal (now : Nat) (s : OuijaState) :
      schedulerActive s = true → InternalStep s (revealNextLetter now s)

/-- C10: enqueueing an empty symbol list puts the store in `isAnimating = true`
and `turn = animating`, yet the scheduler guard is false, so no internal steps
can change the animation substate or the turn: the system stays in `animating`
until an external cancel or reset is invoked (which both do restore
`turn = user`). -/
theorem empty_enqueue_wedges (s₀ s' : OuijaState)
    (h : Relation.ReflTransGen InternalStep (queueLetters [] s₀) s') :
    (queueLetters [] s₀).animation.isAnimating = true ∧
    (queueLetters [] s₀).turn = Turn.animating ∧
    schedulerActive (queueLetters [] s₀) = false ∧
    s'.turn = Turn.animating ∧
    s'.animation = (queueLetters [] s₀).animation ∧
    (∀ err, (onErrorCancel err s').turn = Turn.user) ∧
    (∀ now, (resetSession now s').turn = Turn.user) := by
  have hkey : s'.turn = Turn.animating ∧ s'.animation = (queueLetters [] s₀).animation := by
    induction h with
    | refl => exact ⟨rfl, rfl⟩
    | tail _ hstep ih =>
      cases hstep with
      | frame p rot => exact ih
      | reveal =>
        rename_i now hg
        exfalso
        simp only [schedulerActive] at hg
        rw [ih.2] at hg
        simp [queueLetters] at hg
  exact ⟨rfl, rfl, rfl, hkey.1, hkey.2, fun _ => rfl, fun _ => rfl⟩

/-- Witness for C10 at the concrete initial state, with the empty run. -/
theorem empty_enqueue_wedges_witness :
    (queueLetters [] (initialState 0)).animation.isAnimating = true ∧
    (queueLetters [] (initialState 0)).turn = Turn.animating ∧
    schedulerActive (queueLetters [] (initialState 0)) = false ∧
    (queueLetters [] (initialState 0)).turn = Turn.animating ∧
    (queueLetters [] (initialState 0)).animation = (queueLetters [] (initialState 0)).animation ∧
    (∀ err, (onErrorCancel err (queueLetters [] (initialState 0))).turn = Turn.user) ∧
    (∀ now, (resetSession now (queueLetters [] (initialState 0))).turn = Turn.user) :=
  empty_enqueue_wedges (initialState 0) (queueLetters [] (initialState 0))
    Relation.ReflTransGen.refl

/-! ## Coordinate table and projector (`src/utils/letterCoords.ts`) -/

/-- Table `LETTER_COORDS`: the calibrated pixel offsets from board center, one entry
per supported symbol, plus the space entry and the three tip-anchored
tokens. -/
def LETTER_COORDS : List (String × LetterCoord) :=
  [("A", { x := -548.25, y := -104.31 }),
   ("B", { x := -469, y := -191.65 }),
   ("C", { x := -391.38, y := -254.72 }),
   ("D", { x := -308.9, y := -300 }),
   ("E", { x := -215.1, y := -340.43 }),
   ("F", { x := -109.97, y := -366.31 }),
   ("G", { x := -22.64, y := -372.78 }),
   ("H", { x := 87.33, y := -374.4 }),
   ("I", { x := 190.84, y := -353.37 }),
   ("J", { x := 258.76, y := -327.5 }),
   ("K", { x := 360.65, y := -278.98 }),
   ("L", { x := 462.54, y := -202.97 }),
   ("M", { x := 540.16, y := -123.72 }),
   ("N", { x := -530.46, y := 130.19 }),
   ("O", { x := -467.39, y := 55.8 }),
   ("P", { x := -399.46, y := -12.13 }),
   ("Q", { x := -323.45, y := -55.8 }),
   ("R", { x := -221.56, y := -105.93 }),
   ("S", { x := -121.29, y := -133.42 }),
   ("T", { x := -17.79, y := -144.75 }),
   ("U", { x := 93.8, y := -138.28 }),
   ("V", { x := 189.22, y := -122.1 }),
   ("W", { x := 299.19, y := -76.82 }),
   ("X", { x := 392.99, y := -12.13 }),
   ("Y", { x := 464.15, y := 52.56 }),
   ("Z", { x := 519.14, y := 115.63 }),
   ("1", { x := -380.06, y := 165.77 }),
   ("2", { x := -307.28, y := 172.24 }),
   ("3", { x := -228.03, y := 172.24 }),
   ("4", { x := -145.55, y := 177.09 }),
   ("5", { x := -76.01, y := 178.71 }),
   ("6", { x := 0, y := 172.24 }),
   ("7", { x := 74.39, y := 167.39 }),
   ("8", { x := 153.64, y := 167.39 }),
   ("9", { x := 236.12, y := 165.77 }),
   ("0", { x := 338.01, y := 165.77 }),
   (" ", { x := -11.32, y := 15.36 }),
   ("YES", { x := -798.92, y := -473.05 }),
   ("NO", { x := 826.42, y := -495.69 }),
   ("GOODBYE", { x := -12.94, y := 445.56 })]

/-- JavaScript's `toUpperCase()`, character by character. -/
def toUpperCase (s : String) : String :=
  String.mk (s.data.map Char.toUpper)

/-- Lookup `LETTER_COORDS[upperChar] || LETTER_COORDS[' ']`: the uppercased lookup
with the falsy-fallback to the space entry, as an `Option` capturing the
possibility of a JavaScript `undefined`. -/
def getLetterCoordOpt (char : String) : Option LetterCoord :=
  (LETTER_COORDS.lookup (toUpperCase char)).orElse (fun _ => LETTER_COORDS.lookup " ")

/-- Function `getLetterCoord(char)`; the `⟨0, 0⟩` default is dead code, because the
space entry is present (see `lookup_total`). -/
def getLetterCoord (char : String) : LetterCoord :=
  (getLetterCoordOpt char).getD { x := 0, y := 0 }

/-- Projector `coordToPercent(coord, boardWidth, boardHeight)`: project a pixel offset
from board center into percentage coordinates with center `(50, 50)`. -/
def coordToPercent (coord : LetterCoord) (boardWidth boardHeight : ℚ) : PositionQ :=
  { x := 50 + coord.x / boardWidth * 100
    y := 50 + coord.y / boardHeight * 100 }

/-- Constant `TIP_OFFSET_PERCENT`: offset from planchette center to tip, as a
percentage of the planchette size. -/
def TIP_OFFSET_PERCENT : PositionQ := { x := 0, y := -50 }

/-- Predicate `shouldUseTipPointer(char)`: the three special tokens align via the
planchette's tip rather than its center. -/
def shouldUseTipPointer (char : String) : Bool :=
  toUpperCase char == "YES" || toUpperCase char == "NO" || toUpperCase char == "GOODBYE"

/-- C9: the coordinate lookup is total — it uppercases its input and falls
back to the space entry on unmapped input; in particular `"%"`, `""` and
lowercase `"yes"` all resolve, and `"yes"` resolves to the same entry as
`"YES"`. -/
theorem lookup_total :
    (∀ char : String, (getLetterCoordOpt char).isSome = true ∧
      (LETTER_COORDS.lookup (toUpperCase char) = none →
        getLetterCoordOpt char = LETTER_COORDS.lookup " ")) ∧
    getLetterCoordOpt "%" = LETTER_COORDS.lookup " " ∧
    getLetterCoordOpt "" = LETTER_COORDS.lookup " " ∧
    getLetterCoordOpt "yes" = getLetterCoordOpt "YES" ∧
    getLetterCoord "yes" = getLetterCoord "YES" := by
  refine ⟨fun char => ⟨?_, fun h => ?_⟩, rfl, rfl, rfl, rfl⟩
  · cases h : LETTER_COORDS.lookup (toUpperCase char) with
    | some c => simp [getLetterCoordOpt, h]
    | none =>
      simp only [getLetterCoordOpt, h, Option.orElse_none, Option.none_orElse]
      rfl
  · simp [getLetterCoordOpt, h]

/-- Witness for C9: `"%"` uppercases to itself, misses the table, and the
fallback yields the space entry. -/
theorem lookup_total_witness :
    LETTER_COORDS.lookup (toUpperCase "%") = none ∧
    getLetterCoordOpt "%" = LETTER_COORDS.lookup " " :=
  ⟨rfl, (lookup_total.1 "%").2 rfl⟩

/-! ## Curve engine and easing (`src/utils/animations.ts`), over `ℝ` -/

/-- A 2D position with real coordinates (the curve math side). -/
@[ext]
structure Pos where
  x : ℝ
  y : ℝ

/-- Cast a store-side rational position into the real plane. -/
noncomputable def posOfQ (p : PositionQ) : Pos :=
  { x := (p.x : ℝ), y := (p.y : ℝ) }

/-- Easing `easeOutCubic(t) = 1 - (1-t)^3`. -/
noncomputable def easeOutCubic (t : ℝ) : ℝ := 1 - (1 - t) ^ 3

/-- Easing `easeInOutCubic(t)`. -/
noncomputable def easeInOutCubic (t : ℝ) : ℝ :=
  if t < 0.5 then 4 * t * t * t else 1 - (-2 * t + 2) ^ 3 / 2

/-- JavaScript's `Math.atan2(y, x)` over the reals. -/
noncomputable def atan2 (y x : ℝ) : ℝ :=
  if 0 < x then Real.arctan (y / x)
  else if x < 0 then
    (if 0 ≤ y then Real.arctan (y / x) + Real.pi else Real.arctan (y / x) - Real.pi)
  else
    (if 0 < y then Real.pi / 2 else if y < 0 then -(Real.pi / 2) else 0)

/-- The Euclidean distance both curve functions branch on. -/
noncomputable def distE (s e : Pos) : ℝ :=
  Real.sqrt ((e.x - s.x) * (e.x - s.x) + (e.y - s.y) * (e.y - s.y))

/-- Function `bezierCurve(start, end, t)`: quadratic Bezier with the adaptive
perpendicular control-point offset; returns `start` unchanged when the
endpoints are closer than the `0.01` epsilon. -/
noncomputable def bezierCurve (s e : Pos) (t : ℝ) : Pos :=
  let dx := e.x - s.x
  let dy := e.y - s.y
  let dist := Real.sqrt (dx * dx + dy * dy)
  if dist < 0.01 then { x := s.x, y := s.y }
  else
    let baseCurveFactor : ℝ := 0.25
    let distanceNormalization := min (dist / 50) 3
    let curveFactor := baseCurveFactor / Real.sqrt distanceNormalization
    let controlOffset := dist * curveFactor
    let perpX := -dy / dist
    let perpY := dx / dist
    let controlX := (s.x + e.x) / 2 + perpX * controlOffset
    let controlY := (s.y + e.y) / 2 + perpY * controlOffset
    let oneMinusT := 1 - t
    { x := oneMinusT * oneMinusT * s.x + 2 * oneMinusT * t * controlX + t * t * e.x
      y := oneMinusT * oneMinusT * s.y + 2 * oneMinusT * t * controlY + t * t * e.y }

/-- Function `bezierTangentAngle(start, end, t)`: the angle of the Bezier derivative at
`t` in degrees plus 90, recomputing the same control point; 0 in the
degenerate case. -/
noncomputable def bezierTangentAngle (s e : Pos) (t : ℝ) : ℝ :=
  let dx := e.x - s.x
  let dy := e.y - s.y
  let dist := Real.sqrt (dx * dx + dy * dy)
  if dist < 0.01 then 0
  else
    let baseCurveFactor : ℝ := 0.25
    let distanceNormalization := min (dist / 50) 3
    let curveFactor := baseCurveFactor / Real.sqrt distanceNormalization
    let controlOffset := dist * curveFactor
    let perpX := -dy / dist
    let perpY := dx / dist
    let controlX := (s.x + e.x) / 2 + perpX * controlOffset
    let controlY := (s.y + e.y) / 2 + perpY * controlOffset
    let tangentX := 2 * (1 - t) * (controlX - s.x) + 2 * t * (e.x - controlX)
    let tangentY := 2 * (1 - t) * (controlY - s.y) + 2 * t * (e.y - controlY)
    atan2 tangentY tangentX * (180 / Real.pi) + 90

/-- The control point shared by both curve functions, written once. -/
noncomputable def controlPoint (s e : Pos) : Pos :=
  let dx := e.x - s.x
  let dy := e.y - s.y
  let dist := Real.sqrt (dx * dx + dy * dy)
  let curveFactor := 0.25 / Real.sqrt (min (dist / 50) 3)
  let controlOffset := dist * curveFactor
  { x := (s.x + e.x) / 2 + -dy / dist * controlOffset
    y := (s.y + e.y) / 2 + dx / dist * controlOffset }

/-- The x component of the Bezier derivative
`B'(t) = 2(1-t)(control-start) + 2t(end-control)`. -/
noncomputable def tangentX (s e : Pos) (t : ℝ) : ℝ :=
  2 * (1 - t) * ((controlPoint s e).x - s.x) + 2 * t * (e.x - (controlPoint s e).x)

/-- The y component of the Bezier derivative. -/
noncomputable def tangentY (s e : Pos) (t : ℝ) : ℝ :=
  2 * (1 - t) * ((controlPoint s e).y - s.y) + 2 * t * (e.y - (controlPoint s e).y)

/-- In the degenerate branch the curve returns `start` unchanged. -/
theorem bezierCurve_of_lt (s e : Pos) (t : ℝ) (h : distE s e < 0.01) :
    bezierCurve s e t = { x := s.x, y := s.y } := by
  unfold distE at h
  simp only [bezierCurve]
  rw [if_pos h]

/-- In the degenerate branch the tangent angle is 0. -/
theorem bezierTangentAngle_of_lt (s e : Pos) (t : ℝ) (h : distE s e < 0.01) :
    bezierTangentAngle s e t = 0 := by
  unfold distE at h
  simp only [bezierTangentAngle]
  rw [if_pos h]

/-- Outside the degenerate branch the curve is the quadratic Bezier through
`controlPoint`. -/
theorem bezierCurve_eq_quad (s e : Pos) (t : ℝ) (h : ¬ distE s e < 0.01) :
    bezierCurve s e t =
      { x := (1 - t) * (1 - t) * s.x + 2 * (1 - t) * t * (controlPoint s e).x + t * t * e.x
        y := (1 - t) * (1 - t) * s.y + 2 * (1 - t) * t * (controlPoint s e).y + t * t * e.y } := by
  unfold distE at h
  simp only [bezierCurve, controlPoint]
  rw [if_neg h]

/-- At progress 1 a non-degenerate curve reaches the end point exactly. -/
theorem bezierCurve_one (s e : Pos) (h : ¬ distE s e < 0.01) :
    bezierCurve s e 1 = e := by
  rw [bezierCurve_eq_quad s e 1 h]
  ext <;> ring

/-- At progress 0 a non-degenerate curve sits at the start point exactly. -/
theorem bezierCurve_zero (s e : Pos) (h : ¬ distE s e < 0.01) :
    bezierCurve s e 0 = s := by
  rw [bezierCurve_eq_quad s e 0 h]
  ext <;> ring

/-- Each coordinate gap is bounded by the Euclidean distance. -/
theorem abs_dx_le_distE (s e : Pos) : |e.x - s.x| ≤ distE s e := by
  unfold distE
  calc |e.x - s.x| = Real.sqrt ((e.x - s.x) * (e.x - s.x)) := by
        rw [Real.sqrt_mul_self_eq_abs]
    _ ≤ _ := Real.sqrt_le_sqrt (le_add_of_nonneg_right (mul_self_nonneg _))

/-- Each coordinate gap is bounded by the Euclidean distance (y version). -/
theorem abs_dy_le_distE (s e : Pos) : |e.y - s.y| ≤ distE s e := by
  unfold distE
  calc |e.y - s.y| = Real.sqrt ((e.y - s.y) * (e.y - s.y)) := by
        rw [Real.sqrt_mul_self_eq_abs]
    _ ≤ _ := Real.sqrt_le_sqrt (le_add_of_nonneg_left (mul_self_nonneg _))

/-- C4: for all start/end pairs, `bezierCurve` at `t = 0` equals `start`
exactly, and at `t = 1` it equals `end` exactly — except for pairs closer
than the degenerate-case epsilon `0.01`, where the function returns `start`
unchanged, which is within `0.01` of `end` in every coordinate. -/
theorem curve_endpoint_exactness (s e : Pos) :
    bezierCurve s e 0 = s ∧
    (bezierCurve s e 1 = e ∨
      (distE s e < 0.01 ∧ bezierCurve s e 1 = { x := s.x, y := s.y } ∧
        |(bezierCurve s e 1).x - e.x| < 0.01 ∧ |(bezierCurve s e 1).y - e.y| < 0.01)) := by
  by_cases h : distE s e < 0.01
  · refine ⟨by rw [bezierCurve_of_lt s e 0 h], Or.inr ⟨h, bezierCurve_of_lt s e 1 h, ?_, ?_⟩⟩
    · rw [bezierCurve_of_lt s e 1 h]
      calc |({ x := s.x, y := s.y } : Pos).x - e.x| = |e.x - s.x| := abs_sub_comm _ _
        _ ≤ distE s e := abs_dx_le_distE s e
        _ < 0.01 := h
    · rw [bezierCurve_of_lt s e 1 h]
      calc |({ x := s.x, y := s.y } : Pos).y - e.y| = |e.y - s.y| := abs_sub_comm _ _
        _ ≤ distE s e := abs_dy_le_distE s e
        _ < 0.01 := h
  · exact ⟨bezierCurve_zero s e h, Or.inl (bezierCurve_one s e h)⟩

/-! ## Adaptive move duration (`usePlanchetteAnimation`, C8) -/

/-- Duration `MOVE_DURATION`: `Math.max(MIN_DURATION, Math.min(MAX_DURATION,
BASE_MOVE_DURATION * distanceScale))` with
`distanceScale = Math.min(distance / 30, 2)` over the start and target
positions (in percentage units). -/
noncomputable def moveDuration (currentPos targetPercent : Pos) : ℝ :=
  let dx := targetPercent.x - currentPos.x
  let dy := targetPercent.y - currentPos.y
  let distance := Real.sqrt (dx * dx + dy * dy)
  let distanceScale := min (distance / 30) 2
  max 800 (min 2000 (1200 * distanceScale))

/-- Modelled from the spec: `clamp(v, lo, hi)`, for comparison with the
source's nested `Math.max`/`Math.min`. -/
noncomputable def clamp (v lo hi : ℝ) : ℝ := max lo (min hi v)

/-- C8: for any two normalized positions the computed move duration equals
`clamp(1200 · min(distance/30, 2), 800, 2000)` and lies within
`[800, 2000]` ms inclusive. -/
theorem adaptive_duration_bounds (p q : Pos) :
    moveDuration p q = clamp (1200 * min (distE p q / 30) 2) 800 2000 ∧
    800 ≤ moveDuration p q ∧ moveDuration p q ≤ 2000 := by
  refine ⟨rfl, le_max_left _ _, ?_⟩
  exact max_le (by norm_num) (min_le_left _ _)

/-! ## Position/tangent consistency (C7) -/

/-- C7: outside the degenerate branch, `bezierCurve` and `bezierTangentAngle`
derive the identical control point: the position is the quadratic Bezier
through `controlPoint`, the returned angle is `atan2` of the derivative
`B'(t) = 2(1-t)(control-start) + 2t(end-control)` of that same quadratic,
converted to degrees, plus 90 — and that derivative really is the derivative
of `bezierCurve` in `t`, coordinatewise. -/
theorem tangent_consistent_with_curve (s e : Pos) (t : ℝ) (h : ¬ distE s e < 0.01) :
    bezierCurve s e t =
      { x := (1 - t) * (1 - t) * s.x + 2 * (1 - t) * t * (controlPoint s e).x + t * t * e.x
        y := (1 - t) * (1 - t) * s.y + 2 * (1 - t) * t * (controlPoint s e).y + t * t * e.y } ∧
    bezierTangentAngle s e t =
      atan2 (tangentY s e t) (tangentX s e t) * (180 / Real.pi) + 90 ∧
    HasDerivAt (fun u => (bezierCurve s e u).x) (tangentX s e t) t ∧
    HasDerivAt (fun u => (bezierCurve s e u).y) (tangentY s e t) t := by
  have hu : HasDerivAt (fun u : ℝ => u) 1 t := hasDerivAt_id t
  have h1m : HasDerivAt (fun u : ℝ => 1 - u) (-1) t := by
    simpa using (hasDerivAt_id t).const_sub 1
  refine ⟨bezierCurve_eq_quad s e t h, ?_, ?_, ?_⟩
  · unfold distE at h
    simp only [bezierTangentAngle, tangentX, tangentY, controlPoint]
    rw [if_neg h]
  · have hfun : (fun u => (bezierCurve s e u).x) =
        fun u => (1 - u) * (1 - u) * s.x + 2 * (1 - u) * u * (controlPoint s e).x
          + u * u * e.x :=
      funext fun u => by rw [bezierCurve_eq_quad s e u h]
    rw [hfun]
    have hq := ((h1m.mul h1m).mul_const s.x).add
      ((((h1m.const_mul 2).mul hu).mul_const (controlPoint s e).x).add
        ((hu.mul hu).mul_const e.x))
    convert hq using 1
    · funext u; ring
    · unfold tangentX; ring
  · have hfun : (fun u => (bezierCurve s e u).y) =
        fun u => (1 - u) * (1 - u) * s.y + 2 * (1 - u) * u * (controlPoint s e).y
          + u * u * e.y :=
      funext fun u => by rw [bezierCurve_eq_quad s e u h]
    rw [hfun]
    have hq := ((h1m.mul h1m).mul_const s.y).add
      ((((h1m.const_mul 2).mul hu).mul_const (controlPoint s e).y).add
        ((hu.mul hu).mul_const e.y))
    convert hq using 1
    · funext u; ring
    · unfold tangentY; ring

/-- Witness for C7 at the concrete non-degenerate pair `(0,0) → (30,0)`,
`t = 0`. -/
theorem tangent_consistent_with_curve_witness :
    (¬ distE (⟨0, 0⟩ : Pos) ⟨30, 0⟩ < 0.01) ∧
    (bezierCurve (⟨0, 0⟩ : Pos) ⟨30, 0⟩ 0 =
        { x := (1 - 0) * (1 - 0) * (⟨0, 0⟩ : Pos).x +
            2 * (1 - 0) * 0 * (controlPoint (⟨0, 0⟩ : Pos) ⟨30, 0⟩).x +
            0 * 0 * (⟨30, 0⟩ : Pos).x
          y := (1 - 0) * (1 - 0) * (⟨0, 0⟩ : Pos).y +
            2 * (1 - 0) * 0 * (controlPoint (⟨0, 0⟩ : Pos) ⟨30, 0⟩).y +
            0 * 0 * (⟨30, 0⟩ : Pos).y } ∧
      bezierTangentAngle (⟨0, 0⟩ : Pos) ⟨30, 0⟩ 0 =
        atan2 (tangentY (⟨0, 0⟩ : Pos) ⟨30, 0⟩ 0) (tangentX (⟨0, 0⟩ : Pos) ⟨30, 0⟩ 0) *
            (180 / Real.pi) + 90 ∧
      HasDerivAt (fun u => (bezierCurve (⟨0, 0⟩ : Pos) ⟨30, 0⟩ u).x)
        (tangentX (⟨0, 0⟩ : Pos) ⟨30, 0⟩ 0) 0 ∧
      HasDerivAt (fun u => (bezierCurve (⟨0, 0⟩ : Pos) ⟨30, 0⟩ u).y)
        (tangentY (⟨0, 0⟩ : Pos) ⟨30, 0⟩ 0) 0) := by
  have h30 : distE (⟨0, 0⟩ : Pos) ⟨30, 0⟩ = 30 := by
    unfold distE
    norm_num
    rw [show (900 : ℝ) = 30 ^ 2 by norm_num]
    exact Real.sqrt_sq (by norm_num)
  have hfar : ¬ distE (⟨0, 0⟩ : Pos) ⟨30, 0⟩ < 0.01 := by
    rw [h30]; norm_num
  exact ⟨hfar, tangent_consistent_with_curve ⟨0, 0⟩ ⟨30, 0⟩ 0 hfar⟩

/-! ## The scheduler's moving-phase frame with tip correction (C3) -/

/-- Vector addition on real positions. -/
noncomputable def addPos (a b : Pos) : Pos := { x := a.x + b.x, y := a.y + b.y }

/-- Vector difference on real positions. -/
noncomputable def subPos (a b : Pos) : Pos := { x := a.x - b.x, y := a.y - b.y }

/-- Vector negation on real positions. -/
noncomputable def negPos (a : Pos) : Pos := { x := -a.x, y := -a.y }

/-- Rotation of a vector by `θ` radians, in the screen coordinate convention
the planchette's CSS rotation uses. -/
noncomputable def rotateVec (θ : ℝ) (v : Pos) : Pos :=
  { x := v.x * Real.cos θ - v.y * Real.sin θ
    y := v.x * Real.sin θ + v.y * Real.cos θ }

/-- The target the scheduler resolves for a symbol: `coordToPercent` of the
symbol's table entry with board dimensions `1920 × 1282`. -/
noncomputable def targetPos (char : String) : Pos :=
  posOfQ (coordToPercent (getLetterCoord char) 1920 1282)

/-- The fixed center-to-tip offset vector in percentage units: the
`TIP_OFFSET_PERCENT` planchette-frame offset scaled by the planchette's 18%
size, i.e. `(0, -9)`. -/
noncomputable def tipOffsetVector : Pos :=
  { x := (TIP_OFFSET_PERCENT.x : ℝ) / 100 * 18
    y := (TIP_OFFSET_PERCENT.y : ℝ) / 100 * 18 }

/-- One moving-phase frame of the scheduler at raw progress `p`: position via
the eased Bezier, angle via the separately-eased tangent, and — for
tip-anchored symbols — the rotated tip offset
`offsetDistance = (TIP_OFFSET_PERCENT.y / 100) * 18` applied as
`(sin θ · d, -cos θ · d)`.  Returns the written `(position, rotation)`
pair. -/
noncomputable def tickPosition (char : String) (startPos : Pos) (p : ℝ) : Pos × ℝ :=
  let target := targetPos char
  let positionEased := easeOutCubic p
  let rotationEased := easeInOutCubic p
  let position := bezierCurve startPos target positionEased
  let angle := bezierTangentAngle startPos target rotationEased
  if shouldUseTipPointer char then
    let angleRad := angle * Real.pi / 180
    let offsetDistance := ((TIP_OFFSET_PERCENT.y : ℝ) / 100) * 18
    let offsetX := Real.sin angleRad * offsetDistance
    let offsetY := -Real.cos angleRad * offsetDistance
    ({ x := position.x + offsetX, y := position.y + offsetY }, angle)
  else (position, angle)

/-- Counterexample to C3 as stated for *every* start position: for the
tip-anchored symbol `YES` and a start position `0.005` to the right of the
target, the degenerate branch returns the start position and the tip-projected
point misses `targetPosition` by `0.005`. -/
theorem tip_correction_cex :
    addPos
        (tickPosition "YES" { x := (targetPos "YES").x + 1 / 200, y := (targetPos "YES").y } 1).1
        (rotateVec
          ((tickPosition "YES" { x := (targetPos "YES").x + 1 / 200, y := (targetPos "YES").y } 1).2 *
            Real.pi / 180)
          tipOffsetVector)
      ≠ targetPos "YES" := by
  have hdist : distE { x := (targetPos "YES").x + 1 / 200, y := (targetPos "YES").y }
      (targetPos "YES") = 1 / 200 := by
    unfold distE
    rw [show ((targetPos "YES").x - ((targetPos "YES").x + 1 / 200)) *
          ((targetPos "YES").x - ((targetPos "YES").x + 1 / 200)) +
          ((targetPos "YES").y - (targetPos "YES").y) *
          ((targetPos "YES").y - (targetPos "YES").y) = (1 / 200 : ℝ) ^ 2 by ring]
    exact Real.sqrt_sq (by norm_num)
  have hlt : distE { x := (targetPos "YES").x + 1 / 200, y := (targetPos "YES").y }
      (targetPos "YES") < 0.01 := by
    rw [hdist]; norm_num
  have hcurve := bezierCurve_of_lt
    { x := (targetPos "YES").x + 1 / 200, y := (targetPos "YES").y } (targetPos "YES")
    (easeOutCubic 1) hlt
  have hangle := bezierTangentAngle_of_lt
    { x := (targetPos "YES").x + 1 / 200, y := (targetPos "YES").y } (targetPos "YES")
    (easeInOutCubic 1) hlt
  have htick : tickPosition "YES" { x := (targetPos "YES").x + 1 / 200, y := (targetPos "YES").y } 1 =
      ({ x := (targetPos "YES").x + 1 / 200 + Real.sin (0 * Real.pi / 180) *
            (((TIP_OFFSET_PERCENT.y : ℝ) / 100) * 18)
         y := (targetPos "YES").y + -Real.cos (0 * Real.pi / 180) *
            (((TIP_OFFSET_PERCENT.y : ℝ) / 100) * 18) }, 0) := by
    simp only [tickPosition, hcurve, hangle]
    rw [if_pos (by rfl : shouldUseTipPointer "YES" = true)]
  intro heq
  have hx := congrArg (fun q => q.x) heq
  rw [htick] at hx
  simp only [addPos, rotateVec, tipOffsetVector, TIP_OFFSET_PERCENT] at hx
  rw [show (0 : ℝ) * Real.pi / 180 = 0 by ring] at hx
  rw [Real.sin_zero, Real.cos_zero] at hx
  push_cast at hx
  norm_num at hx

/-- C3 (amended): for every tip-anchored symbol and every start position at
distance at least the degenerate epsilon `0.01` from the projected
`targetPosition`, the frame the scheduler computes at raw progress 1 differs
from `targetPosition` by exactly the rotated tip-to-center vector
(`-tipOffsetVector` rotated by the final rotation angle), and equivalently the
tip-projected point — the computed position plus the rotated center-to-tip
`tipOffsetVector` — lands on `targetPosition` exactly. -/
theorem tip_correction (char : String) (startPos : Pos)
    (htip : shouldUseTipPointer char = true)
    (hfar : ¬ distE startPos (targetPos char) < 0.01) :
    addPos (tickPosition char startPos 1).1
        (rotateVec ((tickPosition char startPos 1).2 * Real.pi / 180) tipOffsetVector)
      = targetPos char ∧
    subPos (tickPosition char startPos 1).1 (targetPos char)
      = rotateVec ((tickPosition char startPos 1).2 * Real.pi / 180) (negPos tipOffsetVector) := by
  have hone : easeOutCubic 1 = 1 := by unfold easeOutCubic; ring
  have hcurve : bezierCurve startPos (targetPos char) (easeOutCubic 1) = targetPos char := by
    rw [hone]; exact bezierCurve_one _ _ hfar
  have htick : tickPosition char startPos 1 =
      ({ x := (targetPos char).x +
            Real.sin (bezierTangentAngle startPos (targetPos char) (easeInOutCubic 1) *
              Real.pi / 180) * (((TIP_OFFSET_PERCENT.y : ℝ) / 100) * 18)
         y := (targetPos char).y +
            -Real.cos (bezierTangentAngle startPos (targetPos char) (easeInOutCubic 1) *
              Real.pi / 180) * (((TIP_OFFSET_PERCENT.y : ℝ) / 100) * 18) },
        bezierTangentAngle startPos (targetPos char) (easeInOutCubic 1)) := by
    simp only [tickPosition, hcurve]
    rw [if_pos (by rw [htip] : shouldUseTipPointer char = true)]
  rw [htick]
  constructor
  · ext
    · simp only [addPos, rotateVec, tipOffsetVector, TIP_OFFSET_PERCENT]
      push_cast
      ring
    · simp only [addPos, rotateVec, tipOffsetVector, TIP_OFFSET_PERCENT]
      push_cast
      ring
  · ext
    · simp only [subPos, rotateVec, negPos, tipOffsetVector, TIP_OFFSET_PERCENT]
      push_cast
      ring
    · simp only [subPos, rotateVec, negPos, tipOffsetVector, TIP_OFFSET_PERCENT]
      push_cast
      ring

/-- Witness for C3 (amended): symbol `YES` from a start position 5 percent
units below the target. -/
theorem tip_correction_witness :
    shouldUseTipPointer "YES" = true ∧
    (¬ distE { x := (targetPos "YES").x, y := (targetPos "YES").y + 5 }
        (targetPos "YES") < 0.01) ∧
    (addPos
        (tickPosition "YES" { x := (targetPos "YES").x, y := (targetPos "YES").y + 5 } 1).1
        (rotateVec
          ((tickPosition "YES" { x := (targetPos "YES").x, y := (targetPos "YES").y + 5 } 1).2 *
            Real.pi / 180)
          tipOffsetVector)
      = targetPos "YES" ∧
    subPos (tickPosition "YES" { x := (targetPos "YES").x, y := (targetPos "YES").y + 5 } 1).1
        (targetPos "YES")
      = rotateVec
          ((tickPosition "YES" { x := (targetPos "YES").x, y := (targetPos "YES").y + 5 } 1).2 *
            Real.pi / 180)
          (negPos tipOffsetVector)) := by
  have hdist : distE { x := (targetPos "YES").x, y := (targetPos "YES").y + 5 }
      (targetPos "YES") = 5 := by
    unfold distE
    rw [show ((targetPos "YES").x - (targetPos "YES").x) *
          ((targetPos "YES").x - (targetPos "YES").x) +
          ((targetPos "YES").y - ((targetPos "YES").y + 5)) *
          ((targetPos "YES").y - ((targetPos "YES").y + 5)) = (5 : ℝ) ^ 2 by ring]
    exact Real.sqrt_sq (by norm_num)
  have hfar : ¬ distE { x := (targetPos "YES").x, y := (targetPos "YES").y + 5 }
      (targetPos "YES") < 0.01 := by
    rw [hdist]; norm_num
  exact ⟨rfl, hfar,
    tip_correction "YES" { x := (targetPos "YES").x, y := (targetPos "YES").y + 5 } rfl hfar⟩

end Ouija
